import Mathlib

/-!
Verification development for the power-plant monitor agent.

The Go sources are shallowly embedded: pure computations become Lean
functions, mutation of receiver structs becomes explicit state passing,
`uint64` arithmetic is modelled as natural numbers with explicit wrap-around
where subtraction occurs, `float64` metric arithmetic is modelled by exact
rationals, wall-clock instants are rational numbers of seconds, and Go maps
become functions into `Option`.
-/

namespace MonitorAgent

/-! ## buffer/ring.go: the generic ring buffer -/

/-- Embedding of `RingBuffer[T]` from buffer/ring.go: a fixed slice `data`
of length `size`, a write index `head`, and the number `count` of stored
items. The mutex only serialises access and has no functional content. -/
structure RingBuffer (α : Type) where
  data : List α
  size : Nat
  head : Nat
  count : Nat
deriving Repr

variable {α : Type}

/-- `NewRingBuffer`: Go `make([]T, size)` zero-fills the slice, which the
`Inhabited` default models. -/
def NewRingBuffer (α : Type) [Inhabited α] (size : Nat) : RingBuffer α :=
  { data := List.replicate size default, size := size, head := 0, count := 0 }

/-- `Push`: write at `head`, advance `head` modulo `size`, and saturate
`count` at `size`. -/
def RingBuffer.Push (r : RingBuffer α) (item : α) : RingBuffer α :=
  { r with
    data := r.data.set r.head item
    head := (r.head + 1) % r.size
    count := if r.count < r.size then r.count + 1 else r.count }

/-- `GetAll`: read `count` items starting from `head` when the buffer is
full, from index 0 otherwise. -/
def RingBuffer.GetAll [Inhabited α] (r : RingBuffer α) : List α :=
  if r.count = 0 then []
  else
    let start := if r.count = r.size then r.head else 0
    (List.range r.count).map (fun i => r.data.getD ((start + i) % r.size) default)

/-- `GetRecent`: clamp `n` to `count`, then read `n` items ending just
before `head`. Go computes `(r.head - n + r.size) % r.size` on `int`, so
the start index is computed over the integers here. -/
def RingBuffer.GetRecent [Inhabited α] (r : RingBuffer α) (n0 : Nat) : List α :=
  let n := if n0 > r.count then r.count else n0
  let start := (((r.head : Int) - n + r.size).tmod r.size).toNat
  (List.range n).map (fun i => r.data.getD ((start + i) % r.size) default)

/-- `Len`. -/
def RingBuffer.Len (r : RingBuffer α) : Nat :=
  r.count

/-- Representation invariant of every buffer reachable from
`NewRingBuffer` by `Push`: the slice keeps its allocated length, the write
index stays in range, the count never exceeds the capacity, and while the
buffer is not yet full the write index equals the count. -/
def RingBuffer.Inv (r : RingBuffer α) : Prop :=
  r.data.length = r.size ∧ r.head < r.size ∧ r.count ≤ r.size ∧
    (r.count < r.size → r.head = r.count)

/-- Push a whole list, oldest first. -/
def RingBuffer.PushAll (r : RingBuffer α) (xs : List α) : RingBuffer α :=
  xs.foldl RingBuffer.Push r

/-- The last `n` elements of a list, in order. -/
def lastN (n : Nat) (l : List α) : List α :=
  l.drop (l.length - n)

theorem lastN_length (n : Nat) (l : List α) : (lastN n l).length = min n l.length := by
  simp [lastN]
  omega

theorem lastN_of_length_le {n : Nat} {l : List α} (h : l.length ≤ n) : lastN n l = l := by
  unfold lastN
  rw [Nat.sub_eq_zero_of_le h, List.drop_zero]

theorem inv_new [Inhabited α] {N : Nat} (hN : 1 ≤ N) : (NewRingBuffer α N).Inv := by
  refine ⟨by simp [NewRingBuffer], by simpa [NewRingBuffer] using hN, by simp [NewRingBuffer],
    by simp [NewRingBuffer]⟩

theorem inv_push {r : RingBuffer α} (h : r.Inv) (x : α) : (r.Push x).Inv := by
  obtain ⟨hlen, hhead, hcnt, hhc⟩ := h
  refine ⟨by simpa [RingBuffer.Push] using hlen, ?_, ?_, ?_⟩
  · simp only [RingBuffer.Push]
    exact Nat.mod_lt _ (by omega)
  · simp only [RingBuffer.Push]
    split <;> omega
  · simp only [RingBuffer.Push]
    intro hlt
    split at hlt
    · rename_i hcc
      rw [if_pos hcc, hhc hcc, Nat.mod_eq_of_lt (by omega)]
    · rename_i hcc
      omega

theorem getAll_length [Inhabited α] (r : RingBuffer α) : r.GetAll.length = r.count := by
  unfold RingBuffer.GetAll
  split
  · simp_all
  · simp

theorem getAll_getElem [Inhabited α] (r : RingBuffer α) (i : Nat) (hi : i < r.GetAll.length) :
    r.GetAll[i] =
      r.data.getD (((if r.count = r.size then r.head else 0) + i) % r.size) default := by
  have hcount : i < r.count := by rwa [getAll_length] at hi
  unfold RingBuffer.GetAll
  split
  · omega
  · simp

/-- One push, seen through `GetAll`: the abstract list gains `x` at the
end and, when the buffer was full, loses its oldest element. -/
theorem getAll_push [Inhabited α] {r : RingBuffer α} (h : r.Inv) (x : α) :
    (r.Push x).GetAll = lastN r.size (r.GetAll ++ [x]) := by
  obtain ⟨hlen, hhead, hcnt, hhc⟩ := h
  have hsize : 1 ≤ r.size := by omega
  have hdata : (r.Push x).data = r.data.set r.head x := rfl
  have hsz : (r.Push x).size = r.size := rfl
  by_cases hfull : r.count = r.size
  · -- full buffer: the abstract list shifts left by one and appends x
    have hcnt1 : (r.Push x).count = r.size := by
      simp [RingBuffer.Push, hfull]
    have hrhs : lastN r.size (r.GetAll ++ [x]) = (r.GetAll ++ [x]).drop 1 := by
      unfold lastN
      rw [List.length_append, List.length_singleton, getAll_length, hfull]
      congr 1
      omega
    rw [hrhs]
    apply List.ext_getElem
    · rw [getAll_length, hcnt1, List.length_drop, List.length_append,
        List.length_singleton, getAll_length, hfull]
      omega
    · intro i h1 h2
      have hi : i < r.size := by rwa [getAll_length, hcnt1] at h1
      rw [getAll_getElem, List.getElem_drop]
      have hstart : (if (r.Push x).count = (r.Push x).size then (r.Push x).head else 0)
          = (r.head + 1) % r.size := by
        simp [RingBuffer.Push, hfull]
      rw [hstart, hdata, hsz]
      have hidx : ((r.head + 1) % r.size + i) % r.size = (r.head + 1 + i) % r.size := by
        rw [Nat.mod_add_mod]
      rw [hidx]
      rcases Nat.lt_or_ge i (r.size - 1) with hlt | hge
      · -- an element surviving from the old buffer
        have hne : (r.head + 1 + i) % r.size ≠ r.head := by
          intro heq
          have hm : r.head ≡ r.head + 1 + i [MOD r.size] := by
            unfold Nat.ModEq
            rw [heq, Nat.mod_eq_of_lt hhead]
          have hdvd : r.size ∣ r.head + 1 + i - r.head :=
            (Nat.modEq_iff_dvd' (by omega)).mp hm
          have := Nat.le_of_dvd (by omega) hdvd
          omega
        have hidxlt : (r.head + 1 + i) % r.size < (r.data.set r.head x).length := by
          rw [List.length_set, hlen]
          exact Nat.mod_lt _ (by omega)
        rw [List.getD_eq_getElem _ _ hidxlt, List.getElem_set_ne (Ne.symm hne)]
        have hleft : 1 + i < r.GetAll.length := by
          rw [getAll_length, hfull]; omega
        rw [List.getElem_append_left hleft, getAll_getElem]
        rw [if_pos hfull,
          List.getD_eq_getElem _ _ (by rw [hlen]; exact Nat.mod_lt _ (by omega))]
        congr 2
        omega
      · -- the freshly pushed element
        have hidx2 : (r.head + 1 + i) % r.size = r.head := by
          have heq : r.head + 1 + i = r.head + r.size := by omega
          rw [heq, Nat.add_mod_right, Nat.mod_eq_of_lt hhead]
        rw [hidx2,
          List.getD_eq_getElem _ _ (by rw [List.length_set, hlen]; omega),
          List.getElem_set_self (by rw [List.length_set, hlen]; omega)]
        have hright : r.GetAll.length ≤ 1 + i := by
          rw [getAll_length, hfull]; omega
        rw [List.getElem_append_right hright]
        simp
  · -- buffer not yet full: the abstract list just gains x at the end
    have hclt : r.count < r.size := by omega
    have hhc2 : r.head = r.count := hhc hclt
    have hcnt1 : (r.Push x).count = r.count + 1 := by
      simp [RingBuffer.Push, hclt]
    have hrhs : lastN r.size (r.GetAll ++ [x]) = r.GetAll ++ [x] :=
      lastN_of_length_le
        (by rw [List.length_append, List.length_singleton, getAll_length]; omega)
    rw [hrhs]
    apply List.ext_getElem
    · rw [getAll_length, hcnt1, List.length_append, List.length_singleton, getAll_length]
    · intro i h1 h2
      have hi : i < r.count + 1 := by rwa [getAll_length, hcnt1] at h1
      have hstart : ((if (r.Push x).count = (r.Push x).size then (r.Push x).head else 0) + i)
          % (r.Push x).size = i := by
        rw [hcnt1, hsz]
        split
        · rename_i hfull2
          have hz : (r.Push x).head = 0 := by
            simp only [RingBuffer.Push]
            rw [hhc2, hfull2, Nat.mod_self]
          rw [hz, Nat.zero_add, Nat.mod_eq_of_lt (by omega)]
        · rw [Nat.zero_add, Nat.mod_eq_of_lt (by omega)]
      rw [getAll_getElem, hstart, hdata]
      rcases Nat.lt_or_ge i r.count with hlt | hge
      · -- an element already present
        have hne : r.head ≠ i := by omega
        rw [List.getD_eq_getElem _ _ (by rw [List.length_set, hlen]; omega),
          List.getElem_set, if_neg hne]
        have hleft : i < r.GetAll.length := by rwa [getAll_length]
        rw [List.getElem_append_left hleft, getAll_getElem]
        rw [if_neg hfull,
          List.getD_eq_getElem _ _ (by rw [hlen]; exact Nat.mod_lt _ (by omega))]
        congr 2
        rw [Nat.zero_add, Nat.mod_eq_of_lt (by omega)]
      · -- the freshly pushed element
        have hhi : r.head = i := by omega
        rw [List.getD_eq_getElem _ _ (by rw [List.length_set, hlen]; omega),
          List.getElem_set, if_pos hhi]
        have hright : r.GetAll.length ≤ i := by rw [getAll_length]; omega
        rw [List.getElem_append_right hright]
        simp

theorem size_push (r : RingBuffer α) (x : α) : (r.Push x).size = r.size := rfl

theorem size_pushAll (r : RingBuffer α) (xs : List α) : (r.PushAll xs).size = r.size := by
  induction xs generalizing r with
  | nil => rfl
  | cons x xs ih => exact (ih (r.Push x)).trans rfl

theorem inv_pushAll {r : RingBuffer α} (h : r.Inv) (xs : List α) : (r.PushAll xs).Inv := by
  induction xs generalizing r with
  | nil => exact h
  | cons x xs ih => exact ih (inv_push h x)

theorem lastN_lastN_append (N : Nat) (l xs : List α) :
    lastN N (lastN N l ++ xs) = lastN N (l ++ xs) := by
  unfold lastN
  have h1 : l.drop (l.length - N) ++ xs = (l ++ xs).drop (l.length - N) :=
    (List.drop_append_of_le_length (by omega)).symm
  rw [h1, List.drop_drop]
  congr 1
  simp only [List.length_append, List.length_drop]
  omega

theorem getAll_new (N : Nat) [Inhabited α] : (NewRingBuffer α N).GetAll = [] := by
  simp [NewRingBuffer, RingBuffer.GetAll]

theorem getAll_pushAll [Inhabited α] {r : RingBuffer α} (h : r.Inv) (xs : List α) :
    (r.PushAll xs).GetAll = lastN r.size (r.GetAll ++ xs) := by
  induction xs generalizing r with
  | nil =>
    rw [List.append_nil]
    exact (lastN_of_length_le (by rw [getAll_length]; exact h.2.2.1)).symm
  | cons x xs ih =>
    have hstep : r.PushAll (x :: xs) = (r.Push x).PushAll xs := rfl
    rw [hstep, ih (inv_push h x), size_push, getAll_push h x, lastN_lastN_append]
    congr 1
    simp

theorem count_pushAll [Inhabited α] {N : Nat} (hN : 1 ≤ N) (xs : List α) :
    ((NewRingBuffer α N).PushAll xs).count = min N xs.length := by
  have h1 := getAll_length ((NewRingBuffer α N).PushAll xs)
  rw [getAll_pushAll (inv_new hN) xs, getAll_new] at h1
  rw [← h1, lastN_length]
  simp [NewRingBuffer]

/-- `GetRecent n` under the invariant: drop all but the last `min n count`
elements of `GetAll`. -/
theorem getRecent_eq [Inhabited α] {r : RingBuffer α} (h : r.Inv) (n : Nat) :
    r.GetRecent n = r.GetAll.drop (r.count - min n r.count) := by
  obtain ⟨hlen, hhead, hcnt, hhc⟩ := h
  have hsize : 1 ≤ r.size := by omega
  have hmin : (if n > r.count then r.count else n) = min n r.count := by
    split <;> omega
  have hn : min n r.count ≤ r.size := by omega
  -- the Go start index (head - n + size) % size, computed over Int, equals
  -- the natural number (head + (size - n)) % size
  have hstart : (((r.head : Int) - min n r.count + r.size).tmod r.size).toNat
      = (r.head + (r.size - min n r.count)) % r.size := by
    have hnn : (0 : Int) ≤ (r.head : Int) - min n r.count + r.size := by omega
    rw [Int.tmod_eq_emod hnn (by omega)]
    have hcast : (r.head : Int) - min n r.count + r.size
        = ((r.head + (r.size - min n r.count) : Nat) : Int) := by
      push_cast
      omega
    rw [hcast]
    exact rfl
  unfold RingBuffer.GetRecent
  simp only [hmin, hstart]
  apply List.ext_getElem
  · simp only [List.length_map, List.length_range, List.length_drop, getAll_length]
    omega
  · intro i h1 h2
    have hi : i < min n r.count := by simpa using h1
    rw [List.getElem_map, List.getElem_range, List.getElem_drop, getAll_getElem]
    congr 1
    rw [Nat.mod_add_mod]
    by_cases hfull : r.count = r.size
    · rw [if_pos hfull]
      congr 1
      omega
    · rw [if_neg hfull]
      have hhc2 : r.head = r.count := hhc (by omega)
      have harg : r.head + (r.size - min n r.count) + i
          = (0 + (r.count - min n r.count + i)) + r.size := by omega
      rw [harg, Nat.add_mod_right]

theorem lastN_lastN {m N : Nat} (h : m ≤ N) (l : List α) :
    lastN m (lastN N l) = lastN m l := by
  unfold lastN
  rw [List.drop_drop]
  congr 1
  simp only [List.length_drop]
  omega

theorem size_new [Inhabited α] (N : Nat) : (NewRingBuffer α N).size = N := rfl

/-- Claim C2: for every ring buffer of capacity N at least 1 and every
sequence of M greater than N items pushed in order, GetAll returns exactly
the last N pushed items oldest-first; after any push prefix the buffer
holds at most N items; and pushing into a full buffer drops exactly the
oldest retained item while appending the new one. -/
theorem C2_bounded_history_eviction (α : Type) [Inhabited α] (N : Nat) (hN : 1 ≤ N)
    (xs : List α) (hM : N < xs.length) :
    (((NewRingBuffer α N).PushAll xs).GetAll.length = N ∧
      ((NewRingBuffer α N).PushAll xs).GetAll = xs.drop (xs.length - N)) ∧
    (∀ k : Nat, ((NewRingBuffer α N).PushAll (xs.take k)).count ≤ N) ∧
    (∀ (k : Nat) (x : α),
      ((NewRingBuffer α N).PushAll (xs.take k)).count = N →
      (((NewRingBuffer α N).PushAll (xs.take k)).Push x).GetAll
        = ((NewRingBuffer α N).PushAll (xs.take k)).GetAll.drop 1 ++ [x]) := by
  have hinv := inv_new (α := α) hN
  have hG : ((NewRingBuffer α N).PushAll xs).GetAll = lastN N xs := by
    rw [getAll_pushAll hinv xs, getAll_new, size_new, List.nil_append]
  refine ⟨⟨?_, ?_⟩, ?_, ?_⟩
  · rw [hG, lastN_length]
    omega
  · rw [hG]
    rfl
  · intro k
    rw [count_pushAll hN (xs.take k)]
    omega
  · intro k x hc
    have hinvk := inv_pushAll hinv (xs.take k)
    have hsz : ((NewRingBuffer α N).PushAll (xs.take k)).size = N :=
      size_pushAll _ _
    have hlenG : ((NewRingBuffer α N).PushAll (xs.take k)).GetAll.length = N := by
      rw [getAll_length, hc]
    rw [getAll_push hinvk x, hsz]
    unfold lastN
    rw [List.length_append, List.length_singleton, hlenG,
      List.drop_append_of_le_length (by omega)]
    congr 2
    omega

/-- Witness for C2 at capacity 2 and push sequence [1, 2, 3]. -/
theorem C2_bounded_history_eviction_witness :
    ((1 ≤ 2 ∧ 2 < ([1, 2, 3] : List Nat).length) ∧
      ((((NewRingBuffer Nat 2).PushAll [1, 2, 3]).GetAll.length = 2 ∧
        ((NewRingBuffer Nat 2).PushAll [1, 2, 3]).GetAll
          = ([1, 2, 3] : List Nat).drop (([1, 2, 3] : List Nat).length - 2)) ∧
      (∀ k : Nat, ((NewRingBuffer Nat 2).PushAll (([1, 2, 3] : List Nat).take k)).count ≤ 2) ∧
      (∀ (k : Nat) (x : Nat),
        ((NewRingBuffer Nat 2).PushAll (([1, 2, 3] : List Nat).take k)).count = 2 →
        (((NewRingBuffer Nat 2).PushAll (([1, 2, 3] : List Nat).take k)).Push x).GetAll
          = ((NewRingBuffer Nat 2).PushAll (([1, 2, 3] : List Nat).take k)).GetAll.drop 1
            ++ [x]))) :=
  ⟨⟨by decide, by decide⟩,
    C2_bounded_history_eviction Nat 2 (by decide) [1, 2, 3] (by decide)⟩

/-- Claim C3: on every buffer state reached by pushing a sequence into a
fresh buffer, GetRecent n returns exactly the min(n, count) most recently
pushed items, oldest first. -/
theorem C3_get_recent_returns_latest (α : Type) [Inhabited α] (N : Nat) (hN : 1 ≤ N)
    (xs : List α) (n : Nat) :
    ((NewRingBuffer α N).PushAll xs).GetRecent n
      = lastN (min n ((NewRingBuffer α N).PushAll xs).count) xs ∧
    (((NewRingBuffer α N).PushAll xs).GetRecent n).length
      = min n ((NewRingBuffer α N).PushAll xs).count ∧
    ((NewRingBuffer α N).PushAll xs).count = min N xs.length := by
  have hinv := inv_new (α := α) hN
  have hinvx := inv_pushAll hinv xs
  have hG : ((NewRingBuffer α N).PushAll xs).GetAll = lastN N xs := by
    rw [getAll_pushAll hinv xs, getAll_new, size_new, List.nil_append]
  have hc : ((NewRingBuffer α N).PushAll xs).count = min N xs.length :=
    count_pushAll hN xs
  have hmle : min n ((NewRingBuffer α N).PushAll xs).count ≤ N := by omega
  have hkey : ((NewRingBuffer α N).PushAll xs).GetRecent n
      = lastN (min n ((NewRingBuffer α N).PushAll xs).count) xs := by
    rw [getRecent_eq hinvx n, hG]
    have hlG : (lastN N xs).length = ((NewRingBuffer α N).PushAll xs).count := by
      rw [lastN_length]
      omega
    have hsub : ((NewRingBuffer α N).PushAll xs).count
          - min n ((NewRingBuffer α N).PushAll xs).count
        = (lastN N xs).length - min n ((NewRingBuffer α N).PushAll xs).count := by
      rw [hlG]
    rw [hsub]
    exact lastN_lastN hmle xs
  refine ⟨hkey, ?_, hc⟩
  rw [hkey, lastN_length]
  omega

/-- Witness for C3 at capacity 3, push sequence [1, 2, 3, 4, 5], n = 2. -/
theorem C3_get_recent_returns_latest_witness :
    (1 ≤ 3 ∧
      (((NewRingBuffer Nat 3).PushAll [1, 2, 3, 4, 5]).GetRecent 2
        = lastN (min 2 ((NewRingBuffer Nat 3).PushAll [1, 2, 3, 4, 5]).count)
            ([1, 2, 3, 4, 5] : List Nat) ∧
      (((NewRingBuffer Nat 3).PushAll [1, 2, 3, 4, 5]).GetRecent 2).length
        = min 2 ((NewRingBuffer Nat 3).PushAll [1, 2, 3, 4, 5]).count ∧
      ((NewRingBuffer Nat 3).PushAll [1, 2, 3, 4, 5]).count
        = min 3 ([1, 2, 3, 4, 5] : List Nat).length)) :=
  ⟨by decide, C3_get_recent_returns_latest Nat 3 (by decide) [1, 2, 3, 4, 5] 2⟩

/-! ## provider (linux): per-process CPU percent from calcCPUPercent -/

/-- Modulus of Go `uint64` arithmetic. -/
def u64Mod : Nat := 2 ^ 64

/-- Go `uint64` subtraction `a - b` (wraps around), for `a b < u64Mod`. -/
def wrapSub (a b : Nat) : Nat := (a + u64Mod - b) % u64Mod

/-- Embedding of `cpuSample`: per-pid CPU sampling state of the linux
provider. `lastPct` is a `float64` in Go, modelled by an exact rational. -/
structure cpuSample where
  procJiffies : Nat
  sysTotal : Nat
  lastPct : Rat
deriving DecidableEq, Repr

/-- The core count fixed in the provider constructor `New`:
`cpu.Counts(true)` with a fallback to 1 when the count comes back 0. It is
never written again after construction. -/
def linuxNumCPU (counted : Nat) : Nat := if counted = 0 then 1 else counted

/-- Embedding of `calcCPUPercent`. The per-pid map `cpuSamples` is the
receiver state; `procRead` is the result of `readProcPidStat` (`none` when
reading /proc/[pid]/stat fails) and `sysTotal` the total jiffies from
`readProcStat`. Returns the reported percentage and the updated map. -/
def calcCPUPercent (numCPU : Nat) (cpuSamples : Int → Option cpuSample) (pid : Int)
    (procRead : Option Nat) (sysTotal : Nat) :
    Rat × (Int → Option cpuSample) :=
  match procRead with
  | none => (0, cpuSamples)
  | some procJiffies =>
    match cpuSamples pid with
    | none =>
      (0, fun p => if p = pid then some ⟨procJiffies, sysTotal, 0⟩ else cpuSamples p)
    | some sample =>
      let deltaSysTotal := wrapSub sysTotal sample.sysTotal
      if deltaSysTotal = 0 then (sample.lastPct, cpuSamples)
      else
        let deltaProc := wrapSub procJiffies sample.procJiffies
        let cpuPct : Rat := (deltaProc : Rat) / (deltaSysTotal : Rat) * 100 * (numCPU : Rat)
        (cpuPct,
          fun p => if p = pid then some ⟨procJiffies, sysTotal, cpuPct⟩ else cpuSamples p)

theorem wrapSub_eq {a b : Nat} (hle : b ≤ a) (ha : a < u64Mod) : wrapSub a b = a - b := by
  unfold wrapSub u64Mod
  unfold u64Mod at ha
  omega

theorem wrapSub_self (a : Nat) : wrapSub a a = 0 := by
  unfold wrapSub u64Mod
  omega

/-- Claim C1: per-process CPU computation. (a) The first query for a pid
stores the observed pair and reports 0. (b) A later query with zero
system-tick delta reports the previously computed percentage and leaves
the stored sample unchanged. (c) A later query with process-tick delta dp
and system-tick delta ds > 0 reports exactly dp / ds * 100 * C, where C is
the core count fixed at provider construction, and stores the new pair. -/
theorem C1_calc_cpu_percent (counted : Nat) (m : Int → Option cpuSample) (pid : Int)
    (proc sys : Nat) (hproc : proc < u64Mod) (hsys : sys < u64Mod) :
    (m pid = none →
      (calcCPUPercent (linuxNumCPU counted) m pid (some proc) sys).1 = 0 ∧
      (calcCPUPercent (linuxNumCPU counted) m pid (some proc) sys).2 pid
        = some ⟨proc, sys, 0⟩) ∧
    (∀ s, m pid = some s → s.sysTotal = sys →
      (calcCPUPercent (linuxNumCPU counted) m pid (some proc) sys).1 = s.lastPct ∧
      (calcCPUPercent (linuxNumCPU counted) m pid (some proc) sys).2 = m) ∧
    (∀ s, m pid = some s → s.sysTotal < sys → s.procJiffies ≤ proc →
      (calcCPUPercent (linuxNumCPU counted) m pid (some proc) sys).1
        = ((proc - s.procJiffies : Nat) : Rat) / ((sys - s.sysTotal : Nat) : Rat)
            * 100 * (linuxNumCPU counted : Rat) ∧
      (calcCPUPercent (linuxNumCPU counted) m pid (some proc) sys).2 pid
        = some ⟨proc, sys,
            ((proc - s.procJiffies : Nat) : Rat) / ((sys - s.sysTotal : Nat) : Rat)
              * 100 * (linuxNumCPU counted : Rat)⟩) := by
  refine ⟨?_, ?_, ?_⟩
  · intro hm
    simp [calcCPUPercent, hm]
  · intro s hm hz
    have hzero : wrapSub sys s.sysTotal = 0 := by
      rw [hz]
      exact wrapSub_self sys
    simp [calcCPUPercent, hm, hzero]
  · intro s hm hlt hle
    have hnz : wrapSub sys s.sysTotal = sys - s.sysTotal := wrapSub_eq (by omega) hsys
    have hnz3 : ¬ (sys - s.sysTotal = 0) := by omega
    have hp : wrapSub proc s.procJiffies = proc - s.procJiffies := wrapSub_eq hle hproc
    simp [calcCPUPercent, hm, hnz, hnz3, hp]

/-- Sample map holding one entry for pid 7, used by the C1 witness. -/
def cpuSamplesOne : Int → Option cpuSample :=
  fun p => if p = 7 then some ⟨10, 40, 0⟩ else none

/-- Witness for C1: pid 7 previously at (10 proc ticks, 40 system ticks),
queried at (30, 140) on a 2-core provider. -/
theorem C1_calc_cpu_percent_witness :
    ((30 < u64Mod ∧ 140 < u64Mod) ∧
      ((cpuSamplesOne 7 = none →
        (calcCPUPercent (linuxNumCPU 2) cpuSamplesOne 7 (some 30) 140).1 = 0 ∧
        (calcCPUPercent (linuxNumCPU 2) cpuSamplesOne 7 (some 30) 140).2 7
          = some ⟨30, 140, 0⟩) ∧
      (∀ s, cpuSamplesOne 7 = some s → s.sysTotal = 140 →
        (calcCPUPercent (linuxNumCPU 2) cpuSamplesOne 7 (some 30) 140).1 = s.lastPct ∧
        (calcCPUPercent (linuxNumCPU 2) cpuSamplesOne 7 (some 30) 140).2 = cpuSamplesOne) ∧
      (∀ s, cpuSamplesOne 7 = some s → s.sysTotal < 140 → s.procJiffies ≤ 30 →
        (calcCPUPercent (linuxNumCPU 2) cpuSamplesOne 7 (some 30) 140).1
          = ((30 - s.procJiffies : Nat) : Rat) / ((140 - s.sysTotal : Nat) : Rat)
              * 100 * (linuxNumCPU 2 : Rat) ∧
        (calcCPUPercent (linuxNumCPU 2) cpuSamplesOne 7 (some 30) 140).2 7
          = some ⟨30, 140,
              ((30 - s.procJiffies : Nat) : Rat) / ((140 - s.sysTotal : Nat) : Rat)
                * 100 * (linuxNumCPU 2 : Rat)⟩))) :=
  ⟨⟨by decide, by decide⟩,
    C1_calc_cpu_percent 2 cpuSamplesOne 7 30 140 (by decide) (by decide)⟩

/-! ## types/types.go and monitor/monitor.go: the single-target monitor -/

/-- The event kinds recorded by the monitors (`types.Event.Type`). -/
inductive EventType
  | exit
  | cpu_threshold
  | restart
deriving DecidableEq, Repr

/-- Embedding of `types.Event`. The wall-clock timestamp and the free-text
`Message` field (pure formatting of the same data) are not modelled. -/
structure Event where
  type : EventType
  pid : Int
  name : String
deriving DecidableEq, Repr

instance : Inhabited Event := ⟨⟨EventType.exit, 0, ""⟩⟩

/-- Embedding of `types.ProcessMetrics` (timestamp not modelled; `CPUPct`
is a `float64` in Go, modelled by an exact rational). -/
structure ProcessMetrics where
  pid : Int
  name : String
  cpuPct : Rat
  rssBytes : Nat
  alive : Bool
deriving DecidableEq, Repr

instance : Inhabited ProcessMetrics := ⟨⟨0, "", 0, 0, false⟩⟩

/-- Embedding of `types.MonitorConfig` (buffer lengths and the log-file
path only configure plumbing that the rules never read). -/
structure MonitorConfig where
  pid : Int
  processName : String
  cpuThreshold : Rat
  cpuExceedCount : Int
  restartCmd : String
deriving Repr

/-- Mutable state of `Monitor` (monitor.go). `stopClosed` records whether
`stopCh` has been closed; `New` is the only place the channel is created
and `Stop` closes it. -/
structure MonState where
  targetPID : Int
  running : Bool
  stopClosed : Bool
  cpuExceedCnt : Int
  lastRestart : Rat
  waitingRestart : Bool
deriving DecidableEq, Repr

/-- Fresh monitor state as built by `New`. The Go zero `time.Time` for
`lastRestart` is modelled as instant 0; the cooldown theorems take the
current instant as an explicit parameter and state their hypotheses on the
difference. -/
def NewMonitor : MonState :=
  { targetPID := 0, running := false, stopClosed := false,
    cpuExceedCnt := 0, lastRestart := 0, waitingRestart := false }

/-- Outcome of the provider calls made inside one `triggerRestart`:
whether the old process is still alive at kill time (kill outcome is only
logged) and whether `ExecuteRestart` succeeds. -/
structure RestartEnv where
  oldAlive : Bool
  execOk : Bool
deriving Repr

/-- Embedding of `Monitor.triggerRestart`. Returns the new state, the
events recorded, and whether execution reached `ExecuteRestart`. A missing
restart command, or a trigger inside the 10-second cooldown window, only
logs and returns without executing anything. On execution the cooldown
clock is set first; the kill of a still-alive old process and the 500ms
settle pause do not change the monitor state; on successful launch a
restart event is recorded and `waitingRestart` is set (for name-configured
and pid-configured targets alike). -/
def Monitor.triggerRestart (cfg : MonitorConfig) (env : RestartEnv) (now : Rat)
    (st : MonState) : MonState × List Event × Bool :=
  if cfg.restartCmd = "" then (st, [], false)
  else if now - st.lastRestart < 10 then (st, [], false)
  else
    let st1 := { st with lastRestart := now }
    if env.execOk = false then (st1, [], true)
    else
      let evt : Event := { type := EventType.restart, pid := st1.targetPID, name := "" }
      let st2 := { st1 with waitingRestart := true }
      (st2, [evt], true)

/-- Embedding of `Monitor.checkRules`: skip everything while waiting for a
restarted process; report exit and trigger a restart when dead; otherwise
run the consecutive CPU-threshold rule. Returns the new state and the
events recorded this tick. -/
def Monitor.checkRules (cfg : MonitorConfig) (env : RestartEnv) (now : Rat)
    (metric : ProcessMetrics) (st : MonState) : MonState × List Event :=
  if st.waitingRestart then (st, [])
  else if metric.alive = false then
    let evt : Event := { type := EventType.exit, pid := metric.pid, name := metric.name }
    let r := Monitor.triggerRestart cfg env now st
    (r.1, evt :: r.2.1)
  else if 0 < cfg.cpuThreshold ∧ cfg.cpuThreshold < metric.cpuPct then
    let cnt := st.cpuExceedCnt + 1
    if cfg.cpuExceedCount ≤ cnt then
      let evt : Event :=
        { type := EventType.cpu_threshold, pid := metric.pid, name := metric.name }
      let r := Monitor.triggerRestart cfg env now { st with cpuExceedCnt := cnt }
      ({ r.1 with cpuExceedCnt := 0 }, evt :: r.2.1)
    else
      ({ st with cpuExceedCnt := cnt }, [])
  else
    ({ st with cpuExceedCnt := 0 }, [])

/-- An alive sample with the given CPU percentage. -/
def aliveSample (pid : Int) (name : String) (cpu : Rat) : ProcessMetrics :=
  { pid := pid, name := name, cpuPct := cpu, rssBytes := 0, alive := true }

/-- Fold `checkRules` over a sequence of alive CPU samples, collecting the
events of every tick in order. -/
def runCPURules (cfg : MonitorConfig) (env : RestartEnv) (now : Rat)
    (cpus : List Rat) (st : MonState) : MonState × List Event :=
  cpus.foldl
    (fun acc cpu =>
      let r := Monitor.checkRules cfg env now (aliveSample cfg.pid "" cpu) acc.1
      (r.1, acc.2 ++ r.2))
    (st, [])

/-- The C5 configuration: CPU threshold 80, exceed count 3, no restart
command configured. -/
def cfgC5 : MonitorConfig :=
  { pid := 1234, processName := "", cpuThreshold := 80, cpuExceedCount := 3,
    restartCmd := "" }

/-- Claim C5: with CPU threshold 80 and exceed count 3, the alive sample
sequence [85, 85, 70, 85, 85, 85] records exactly one cpu_threshold event,
and only at the sixth sample (the 70 resets the first run); moreover the
consecutive-exceed counter resets to 0 on every sample at or below the
threshold and immediately after the rule fires. -/
theorem C5_cpu_threshold_exceed_count (env : RestartEnv) (now : Rat) :
    (runCPURules cfgC5 env now [85, 85, 70, 85, 85, 85] NewMonitor).2
      = [⟨EventType.cpu_threshold, 1234, ""⟩] ∧
    (runCPURules cfgC5 env now [85, 85, 70, 85, 85] NewMonitor).2 = [] ∧
    (∀ (st : MonState) (metric : ProcessMetrics), st.waitingRestart = false →
      metric.alive = true → metric.cpuPct ≤ cfgC5.cpuThreshold →
      (Monitor.checkRules cfgC5 env now metric st).1.cpuExceedCnt = 0) ∧
    (∀ (st : MonState) (metric : ProcessMetrics), st.waitingRestart = false →
      metric.alive = true → cfgC5.cpuThreshold < metric.cpuPct →
      cfgC5.cpuExceedCount ≤ st.cpuExceedCnt + 1 →
      (Monitor.checkRules cfgC5 env now metric st).1.cpuExceedCnt = 0) := by
  refine ⟨?_, ?_, ?_, ?_⟩
  · norm_num [runCPURules, Monitor.checkRules, Monitor.triggerRestart, cfgC5,
      aliveSample, NewMonitor]
  · norm_num [runCPURules, Monitor.checkRules, Monitor.triggerRestart, cfgC5,
      aliveSample, NewMonitor]
  · intro st metric hw halive hle
    have hnot : ¬ (cfgC5.cpuThreshold < metric.cpuPct) := not_lt.mpr hle
    simp [Monitor.checkRules, hw, halive, hnot]
  · intro st metric hw halive hgt hcnt
    simp only [cfgC5] at hgt hcnt
    simp [Monitor.checkRules, Monitor.triggerRestart, hw, halive, hgt, hcnt, cfgC5]

/-- Witness for C5: the two concrete runs, the counter reset on a 70
sample from a fresh state, and the reset after a fire from counter 2. -/
theorem C5_cpu_threshold_exceed_count_witness :
    ((runCPURules cfgC5 ⟨false, true⟩ 0 [85, 85, 70, 85, 85, 85] NewMonitor).2
      = [⟨EventType.cpu_threshold, 1234, ""⟩] ∧
    (runCPURules cfgC5 ⟨false, true⟩ 0 [85, 85, 70, 85, 85] NewMonitor).2 = [] ∧
    (Monitor.checkRules cfgC5 ⟨false, true⟩ 0 (aliveSample 1234 "" 70)
      NewMonitor).1.cpuExceedCnt = 0 ∧
    (Monitor.checkRules cfgC5 ⟨false, true⟩ 0 (aliveSample 1234 "" 85)
      { NewMonitor with cpuExceedCnt := 2 }).1.cpuExceedCnt = 0) :=
  ⟨(C5_cpu_threshold_exceed_count ⟨false, true⟩ 0).1,
    (C5_cpu_threshold_exceed_count ⟨false, true⟩ 0).2.1,
    (C5_cpu_threshold_exceed_count ⟨false, true⟩ 0).2.2.1 NewMonitor
      (aliveSample 1234 "" 70) (by decide) (by decide)
      (by norm_num [aliveSample, cfgC5]),
    (C5_cpu_threshold_exceed_count ⟨false, true⟩ 0).2.2.2
      { NewMonitor with cpuExceedCnt := 2 } (aliveSample 1234 "" 85)
      (by decide) (by decide) (by norm_num [aliveSample, cfgC5])
      (by norm_num [NewMonitor, cfgC5])⟩

/-- Claim C4: with a restart command configured, a trigger executing at t1
(outside any earlier cooldown) and a second trigger at t2 within 10
seconds of t1 result in exactly one command execution: the second trigger
is skipped, records no event and leaves the state untouched. -/
theorem C4_restart_cooldown_single_execution (cfg : MonitorConfig)
    (env1 env2 : RestartEnv) (st : MonState) (t1 t2 : Rat)
    (hcmd : cfg.restartCmd ≠ "") (h1 : 10 ≤ t1 - st.lastRestart)
    (h12 : t1 ≤ t2) (h2 : t2 - t1 < 10) :
    (Monitor.triggerRestart cfg env1 t1 st).2.2 = true ∧
    (Monitor.triggerRestart cfg env1 t1 st).1.lastRestart = t1 ∧
    (Monitor.triggerRestart cfg env2 t2 (Monitor.triggerRestart cfg env1 t1 st).1).2.2
      = false ∧
    (Monitor.triggerRestart cfg env2 t2 (Monitor.triggerRestart cfg env1 t1 st).1).2.1
      = [] ∧
    (Monitor.triggerRestart cfg env2 t2 (Monitor.triggerRestart cfg env1 t1 st).1).1
      = (Monitor.triggerRestart cfg env1 t1 st).1 := by
  have hn1 : ¬ (t1 - st.lastRestart < 10) := not_lt.mpr h1
  by_cases hexec : env1.execOk = false <;>
    simp [Monitor.triggerRestart, hcmd, hn1, hexec, h2]

/-- Configuration with a restart command, for the C4 witness. -/
def cfgC4 : MonitorConfig :=
  { pid := 9, processName := "srv", cpuThreshold := 0, cpuExceedCount := 0,
    restartCmd := "./run.sh" }

/-- Witness for C4: triggers at instants 100 and 105 from a fresh state. -/
theorem C4_restart_cooldown_single_execution_witness :
    ((cfgC4.restartCmd ≠ "" ∧ 10 ≤ (100 : Rat) - NewMonitor.lastRestart ∧
      (100 : Rat) ≤ 105 ∧ (105 : Rat) - 100 < 10) ∧
    ((Monitor.triggerRestart cfgC4 ⟨true, true⟩ 100 NewMonitor).2.2 = true ∧
    (Monitor.triggerRestart cfgC4 ⟨true, true⟩ 100 NewMonitor).1.lastRestart = 100 ∧
    (Monitor.triggerRestart cfgC4 ⟨false, true⟩ 105
      (Monitor.triggerRestart cfgC4 ⟨true, true⟩ 100 NewMonitor).1).2.2 = false ∧
    (Monitor.triggerRestart cfgC4 ⟨false, true⟩ 105
      (Monitor.triggerRestart cfgC4 ⟨true, true⟩ 100 NewMonitor).1).2.1 = [] ∧
    (Monitor.triggerRestart cfgC4 ⟨false, true⟩ 105
      (Monitor.triggerRestart cfgC4 ⟨true, true⟩ 100 NewMonitor).1).1
      = (Monitor.triggerRestart cfgC4 ⟨true, true⟩ 100 NewMonitor).1)) :=
  ⟨⟨by decide, by norm_num [NewMonitor], by norm_num, by norm_num⟩,
    C4_restart_cooldown_single_execution cfgC4 ⟨true, true⟩ ⟨false, true⟩ NewMonitor
      100 105 (by decide) (by norm_num [NewMonitor]) (by norm_num) (by norm_num)⟩

/-- Embedding of `Monitor.Start`: fails when already running, resolves the
target identifier (directly when a positive pid is configured, otherwise
by name lookup, otherwise an error), marks the monitor running and
launches the sampling loop. `stopCh` is not touched here: it is created
once in `New` only. -/
def Monitor.Start (cfg : MonitorConfig) (findPID : String → Except String Int)
    (st : MonState) : Except String MonState :=
  if st.running then Except.error "monitor already running"
  else if 0 < cfg.pid then
    Except.ok { st with targetPID := cfg.pid, running := true }
  else if cfg.processName ≠ "" then
    match findPID cfg.processName with
    | Except.error e => Except.error e
    | Except.ok pid => Except.ok { st with targetPID := pid, running := true }
  else Except.error "pid or process_name required"

/-- Embedding of `Monitor.Stop`: a no-op when idle; otherwise closes the
stop channel and clears the running flag. The channel is never recreated
afterwards. -/
def Monitor.Stop (st : MonState) : MonState :=
  if st.running = false then st
  else { st with stopClosed := true, running := false }

/-- Model of the `loop` goroutine over `ticks` elapsed one-second ticks:
a closed stop channel is ready immediately at the first select, before the
ticker can ever fire, so the loop returns without collecting; otherwise it
performs one collect per tick. -/
def Monitor.loopCollects (st : MonState) (ticks : Nat) : Nat :=
  if st.stopClosed then 0 else ticks

/-- Embedding of `Monitor.IsRunning`. -/
def Monitor.IsRunning (st : MonState) : Bool :=
  st.running

/-- Claim C10: after Start then Stop, a second Start succeeds and reports
running, but the stop channel stays closed (it is never recreated), so the
relaunched loop exits before collecting anything: no tick ever executes
again even though IsRunning returns true. -/
theorem C10_start_after_stop_never_ticks (cfg : MonitorConfig)
    (findPID : String → Except String Int) (hpid : 0 < cfg.pid) :
    ∃ s1 s3 : MonState,
      Monitor.Start cfg findPID NewMonitor = Except.ok s1 ∧
      Monitor.loopCollects s1 5 = 5 ∧
      (Monitor.Stop s1).running = false ∧
      (Monitor.Stop s1).stopClosed = true ∧
      Monitor.Start cfg findPID (Monitor.Stop s1) = Except.ok s3 ∧
      Monitor.IsRunning s3 = true ∧
      s3.stopClosed = true ∧
      ∀ ticks : Nat, Monitor.loopCollects s3 ticks = 0 := by
  refine ⟨{ NewMonitor with targetPID := cfg.pid, running := true },
    { targetPID := cfg.pid, running := true, stopClosed := true,
      cpuExceedCnt := 0, lastRestart := 0, waitingRestart := false },
    ?_, ?_, ?_, ?_, ?_, ?_, ?_, ?_⟩
  · simp [Monitor.Start, NewMonitor, hpid]
  · simp [Monitor.loopCollects, NewMonitor]
  · simp [Monitor.Stop, NewMonitor]
  · simp [Monitor.Stop, NewMonitor]
  · simp [Monitor.Start, Monitor.Stop, NewMonitor, hpid]
  · simp [Monitor.IsRunning]
  · rfl
  · intro ticks
    simp [Monitor.loopCollects]

/-- Configuration pinned to pid 42, for the C10 witness. -/
def cfgC10 : MonitorConfig :=
  { pid := 42, processName := "", cpuThreshold := 0, cpuExceedCount := 0,
    restartCmd := "" }

/-- Witness for C10 at the pid-42 configuration. -/
theorem C10_start_after_stop_never_ticks_witness :
    (0 < cfgC10.pid ∧
      ∃ s1 s3 : MonState,
        Monitor.Start cfgC10 (fun _ => Except.error "") NewMonitor = Except.ok s1 ∧
        Monitor.loopCollects s1 5 = 5 ∧
        (Monitor.Stop s1).running = false ∧
        (Monitor.Stop s1).stopClosed = true ∧
        Monitor.Start cfgC10 (fun _ => Except.error "") (Monitor.Stop s1)
          = Except.ok s3 ∧
        Monitor.IsRunning s3 = true ∧
        s3.stopClosed = true ∧
        ∀ ticks : Nat, Monitor.loopCollects s3 ticks = 0) :=
  ⟨by decide,
    C10_start_after_stop_never_ticks cfgC10 (fun _ => Except.error "") (by decide)⟩

/-- Embedding of the attempt loop inside `waitAndRefindPID`: each list
entry is one `FindAllPIDsByName` outcome, taken once per second (`none`
models a lookup error). The first successful nonempty result rebinds the
target identifier to its first element and returns; otherwise the loop
moves to the next attempt and, after the last one, only logs a warning. -/
def Monitor.refindAttempts : List (Option (List Int)) → MonState → MonState
  | [], st => st
  | r :: rest, st =>
    match r with
    | some (pid :: _) => { st with targetPID := pid }
    | _ => Monitor.refindAttempts rest st

/-- Embedding of `Monitor.waitAndRefindPID`: after the 2-second grace
delay, at most 10 once-per-second lookup attempts run; the deferred
cleanup clears `waitingRestart` on every return path. -/
def Monitor.waitAndRefindPID (lookups : List (Option (List Int))) (st : MonState) :
    MonState :=
  let st1 := Monitor.refindAttempts (lookups.take 10) st
  { st1 with waitingRestart := false }

/-- A monitor state waiting for a restarted process, target pid 7. -/
def stAwaitingC7 : MonState :=
  { targetPID := 7, running := true, stopClosed := false, cpuExceedCnt := 0,
    lastRestart := 0, waitingRestart := true }

/-- Counterexample to claim C7: when all 10 lookup attempts fail, the
deferred cleanup in `waitAndRefindPID` still clears the waiting flag, so
the monitor does not remain in the awaiting state; rule evaluation resumes
on the next tick (here a dead sample immediately records an exit event,
which the awaiting state would have suppressed). -/
theorem C7_counterexample_await_flag_cleared :
    (Monitor.waitAndRefindPID (List.replicate 10 none) stAwaitingC7).waitingRestart
      = false ∧
    (Monitor.checkRules cfgC5 ⟨false, true⟩ 0 ⟨7, "", 0, 0, false⟩
      (Monitor.waitAndRefindPID (List.replicate 10 none) stAwaitingC7)).2
      = [⟨EventType.exit, 7, ""⟩] := by
  refine ⟨by decide, by decide⟩

/-- Claim C7 amended: if none of the 10 lookup attempts finds a matching
identifier, the rebind task leaves the target identifier unchanged but
still clears the awaiting flag on its way out (only a warning is logged),
so rule evaluation resumes on subsequent ticks instead of staying
suspended. -/
theorem C7_rebind_gives_up_and_clears_flag (lookups : List (Option (List Int)))
    (st : MonState) (hfail : ∀ r ∈ lookups, r = none ∨ r = some []) :
    Monitor.waitAndRefindPID lookups st = { st with waitingRestart := false } := by
  unfold Monitor.waitAndRefindPID
  have key : ∀ l : List (Option (List Int)), (∀ r ∈ l, r = none ∨ r = some []) →
      Monitor.refindAttempts l st = st := by
    intro l
    induction l with
    | nil => intro _; rfl
    | cons r rest ih =>
      intro hl
      have hr := hl r (by simp)
      have hrest : ∀ x ∈ rest, x = none ∨ x = some [] := fun x hx => hl x (by simp [hx])
      rcases hr with h | h <;> subst h <;> simp [Monitor.refindAttempts, ih hrest]
  rw [key (lookups.take 10) (fun r hr => hfail r (List.take_subset _ _ hr))]

/-- Witness for the amended C7: three failing attempts from the awaiting
state. -/
theorem C7_rebind_gives_up_and_clears_flag_witness :
    ((∀ r ∈ List.replicate 3 (none : Option (List Int)), r = none ∨ r = some []) ∧
      Monitor.waitAndRefindPID (List.replicate 3 none) stAwaitingC7
        = { stAwaitingC7 with waitingRestart := false }) :=
  ⟨by decide,
    C7_rebind_gives_up_and_clears_flag (List.replicate 3 none) stAwaitingC7 (by decide)⟩

/-! ## monitor/multi_monitor.go: the fleet monitor -/

/-- Embedding of `types.MonitorTarget` (the Go `Alias` field is named
`aliasName` here). -/
structure MonitorTarget where
  pid : Int
  name : String
  aliasName : String
  cmdline : String
  restartCmd : String
  autoRestart : Bool
  cpuThreshold : Rat
  memThreshold : Nat
  cpuExceedCount : Int
  memExceedCount : Int
  restartCooldown : Int
deriving DecidableEq, Repr

/-- Embedding of `targetState` (multi_monitor.go). -/
structure TargetState where
  target : MonitorTarget
  cpuExceedCnt : Int
  lastRestart : Rat
  lastMetric : Option ProcessMetrics
  exitReported : Bool
deriving DecidableEq, Repr

/-- Embedding of the fields of `types.MultiMonitorConfig` that the
modelled operations read. -/
structure MultiMonitorConfig where
  metricsBufferLen : Int
  eventsBufferLen : Int
  sampleInterval : Int
deriving DecidableEq, Repr

/-- The defaulting performed at the top of `NewMultiMonitor`. -/
def normalizeMultiConfig (cfg : MultiMonitorConfig) : MultiMonitorConfig :=
  { sampleInterval := if cfg.sampleInterval ≤ 0 then 1 else cfg.sampleInterval,
    metricsBufferLen := if cfg.metricsBufferLen ≤ 0 then 300 else cfg.metricsBufferLen,
    eventsBufferLen := if cfg.eventsBufferLen ≤ 0 then 100 else cfg.eventsBufferLen }

/-- Mutable state of `MultiMonitor`: the pid-keyed target map and metric
buffers, the shared event buffer, and the running flag. The JSONL log file
and its directory handling are plumbing and not modelled. -/
structure MultiState where
  targets : Int → Option TargetState
  metricsBuffers : Int → Option (RingBuffer ProcessMetrics)
  eventsBuffer : RingBuffer Event
  running : Bool

attribute [ext] MultiState

/-- State built by `NewMultiMonitor`. -/
def NewMultiMonitor (cfg : MultiMonitorConfig) : MultiState :=
  { targets := fun _ => none,
    metricsBuffers := fun _ => none,
    eventsBuffer := NewRingBuffer Event (normalizeMultiConfig cfg).eventsBufferLen.toNat,
    running := false }

/-- Provider responses observed during one fleet-monitor operation. -/
structure ProviderEnv where
  isAlive : Int → Bool
  getMetrics : Int → Option ProcessMetrics

/-- Failure reasons of the fleet-monitor mutating operations (Go returns
`fmt.Errorf` values; only their identity matters here). -/
inductive MError
  | duplicateTarget
  | notAlive
  | unknownTarget
deriving DecidableEq, Repr

/-- Embedding of `MultiMonitor.AddTarget`: reject a duplicate pid, reject
a pid whose process is not currently alive, otherwise take one synchronous
initial sample (kept when `GetMetrics` succeeds), insert the tracking
state and a fresh metric buffer seeded with that sample. Returns the new
state and the error; on every error path the state comes back unchanged. -/
def MultiMonitor.AddTarget (cfg : MultiMonitorConfig) (env : ProviderEnv)
    (tgt : MonitorTarget) (ms : MultiState) : MultiState × Option MError :=
  if (ms.targets tgt.pid).isSome then (ms, some MError.duplicateTarget)
  else if env.isAlive tgt.pid = false then (ms, some MError.notAlive)
  else
    let initialMetric :=
      (env.getMetrics tgt.pid).map (fun met => { met with alive := true })
    let state : TargetState :=
      { target := tgt, cpuExceedCnt := 0, lastRestart := 0,
        lastMetric := initialMetric, exitReported := false }
    let buf0 :=
      NewRingBuffer ProcessMetrics (normalizeMultiConfig cfg).metricsBufferLen.toNat
    let buf := match initialMetric with
      | some met => buf0.Push met
      | none => buf0
    ({ ms with
        targets := fun p => if p = tgt.pid then some state else ms.targets p,
        metricsBuffers := fun p => if p = tgt.pid then some buf else ms.metricsBuffers p },
      none)

/-- Embedding of `MultiMonitor.RemoveTarget`: delete the tracking state
and the metric history of the pid. The Go method has no return value, so
removing an untracked pid is a silent no-op. -/
def MultiMonitor.RemoveTarget (ms : MultiState) (pid : Int) : MultiState :=
  { ms with
    targets := fun p => if p = pid then none else ms.targets p,
    metricsBuffers := fun p => if p = pid then none else ms.metricsBuffers p }

/-- Remove as section 7 of the specification words it, for comparison
with the code: removing an untracked identifier fails with UnknownTarget,
otherwise the state is dropped. -/
def MultiMonitor.RemoveTargetSpec (ms : MultiState) (pid : Int) :
    Except MError MultiState :=
  if (ms.targets pid).isSome then Except.ok (MultiMonitor.RemoveTarget ms pid)
  else Except.error MError.unknownTarget

/-- Embedding of `MultiMonitor.collectOne` for one pid: skip untracked
pids; query liveness and, when alive, metrics (keeping the zero-valued
sample on a metrics error) and clear the exit-reported flag; push the
sample into the pid buffer and store it as the last metric; finally record
an exit event only when the process is dead and its exit is not yet
reported, setting the flag. -/
def MultiMonitor.collectOne (env : ProviderEnv) (pid : Int) (ms : MultiState) :
    MultiState :=
  match ms.targets pid with
  | none => ms
  | some state =>
    let alive := env.isAlive pid
    let metric0 : ProcessMetrics :=
      { pid := pid, name := "", cpuPct := 0, rssBytes := 0, alive := alive }
    let metric :=
      if alive then
        match env.getMetrics pid with
        | some met => { met with alive := true }
        | none => metric0
      else metric0
    let state1 := if alive then { state with exitReported := false } else state
    let buffers := fun p =>
      if p = pid then (ms.metricsBuffers pid).map (fun b => b.Push metric)
      else ms.metricsBuffers p
    let state2 := { state1 with lastMetric := some metric }
    if alive = false ∧ state1.exitReported = false then
      { ms with
        targets := fun p =>
          if p = pid then some { state2 with exitReported := true } else ms.targets p,
        metricsBuffers := buffers,
        eventsBuffer := ms.eventsBuffer.Push ⟨EventType.exit, pid, state.target.name⟩ }
    else
      { ms with
        targets := fun p => if p = pid then some state2 else ms.targets p,
        metricsBuffers := buffers }

/-- Run `collectOne` for one pid over a per-tick liveness sequence (the
metrics query fails throughout; the exit rule never reads it). -/
def runLiveness (pid : Int) (seq : List Bool) (ms : MultiState) : MultiState :=
  seq.foldl (fun acc a => MultiMonitor.collectOne ⟨fun _ => a, fun _ => none⟩ pid acc) ms

/-- The fleet target used by the C6 scenario. -/
def tgtC6 : MonitorTarget :=
  { pid := 3, name := "worker", aliasName := "", cmdline := "", restartCmd := "",
    autoRestart := false, cpuThreshold := 0, memThreshold := 0, cpuExceedCount := 0,
    memExceedCount := 0, restartCooldown := 0 }

/-- A fleet state tracking only pid 3, exit not reported. -/
def msC6 : MultiState :=
  { targets := fun p => if p = 3 then some ⟨tgtC6, 0, 0, none, false⟩ else none,
    metricsBuffers := fun p =>
      if p = 3 then some (NewRingBuffer ProcessMetrics 300) else none,
    eventsBuffer := NewRingBuffer Event 100,
    running := true }

/-- Claim C6: an exit event is recorded only on an alive-to-dead
transition. Concretely the liveness sequence alive, dead, dead, alive,
dead records exactly two exit events; in general an alive tick clears the
exit-reported flag and records nothing, a dead tick with the flag set
records nothing, and a dead tick with the flag clear records exactly one
exit event and sets the flag. -/
theorem C6_exit_edge_two_events (env : ProviderEnv) (ms : MultiState) (pid : Int) :
    (runLiveness 3 [true, false, false, true, false] msC6).eventsBuffer.GetAll
      = [⟨EventType.exit, 3, "worker"⟩, ⟨EventType.exit, 3, "worker"⟩] ∧
    (∀ st, ms.targets pid = some st → env.isAlive pid = true →
      (MultiMonitor.collectOne env pid ms).eventsBuffer = ms.eventsBuffer ∧
      ∀ st', (MultiMonitor.collectOne env pid ms).targets pid = some st' →
        st'.exitReported = false) ∧
    (∀ st, ms.targets pid = some st → env.isAlive pid = false →
      st.exitReported = true →
      (MultiMonitor.collectOne env pid ms).eventsBuffer = ms.eventsBuffer) ∧
    (∀ st, ms.targets pid = some st → env.isAlive pid = false →
      st.exitReported = false →
      (MultiMonitor.collectOne env pid ms).eventsBuffer
        = ms.eventsBuffer.Push ⟨EventType.exit, pid, st.target.name⟩ ∧
      ∀ st', (MultiMonitor.collectOne env pid ms).targets pid = some st' →
        st'.exitReported = true) := by
  refine ⟨by decide, ?_, ?_, ?_⟩
  · intro st hst halive
    cases hgm : env.getMetrics pid <;>
      simp [MultiMonitor.collectOne, hst, halive, hgm]
  · intro st hst halive hrep
    simp [MultiMonitor.collectOne, hst, halive, hrep]
  · intro st hst halive hrep
    simp [MultiMonitor.collectOne, hst, halive, hrep]

/-- Witness for C6: the concrete five-tick run plus each edge case at a
one-target fleet state. -/
theorem C6_exit_edge_two_events_witness :
    ((runLiveness 3 [true, false, false, true, false] msC6).eventsBuffer.GetAll
      = [⟨EventType.exit, 3, "worker"⟩, ⟨EventType.exit, 3, "worker"⟩] ∧
    ((MultiMonitor.collectOne ⟨fun _ => true, fun _ => none⟩ 3 msC6).eventsBuffer
      = msC6.eventsBuffer ∧
      ∀ st', (MultiMonitor.collectOne ⟨fun _ => true, fun _ => none⟩ 3 msC6).targets 3
          = some st' → st'.exitReported = false) ∧
    (MultiMonitor.collectOne ⟨fun _ => false, fun _ => none⟩ 3 msC6).eventsBuffer
      = msC6.eventsBuffer.Push ⟨EventType.exit, 3, tgtC6.name⟩) :=
  ⟨(C6_exit_edge_two_events ⟨fun _ => true, fun _ => none⟩ msC6 3).1,
    (C6_exit_edge_two_events ⟨fun _ => true, fun _ => none⟩ msC6 3).2.1
      ⟨tgtC6, 0, 0, none, false⟩ (by decide) (by decide),
    ((C6_exit_edge_two_events ⟨fun _ => false, fun _ => none⟩ msC6 3).2.2.2
      ⟨tgtC6, 0, 0, none, false⟩ (by decide) (by decide) (by decide)).1⟩

/-- Claim C8: AddTarget rejects a duplicate pid and a pid that is not
alive; every failure returns the state unchanged (no target entry, no
metric history); success returns no error and installs the tracking state
and a one-sample history holding the synchronously captured initial
metric. -/
theorem C8_add_target_validation (cfg : MultiMonitorConfig) (env : ProviderEnv)
    (tgt : MonitorTarget) (ms : MultiState) :
    ((ms.targets tgt.pid).isSome = true →
      MultiMonitor.AddTarget cfg env tgt ms = (ms, some MError.duplicateTarget)) ∧
    (ms.targets tgt.pid = none → env.isAlive tgt.pid = false →
      MultiMonitor.AddTarget cfg env tgt ms = (ms, some MError.notAlive)) ∧
    (∀ e, (MultiMonitor.AddTarget cfg env tgt ms).2 = some e →
      (MultiMonitor.AddTarget cfg env tgt ms).1 = ms) ∧
    (∀ met, ms.targets tgt.pid = none → env.isAlive tgt.pid = true →
      env.getMetrics tgt.pid = some met →
      (MultiMonitor.AddTarget cfg env tgt ms).2 = none ∧
      (MultiMonitor.AddTarget cfg env tgt ms).1.targets tgt.pid
        = some { target := tgt, cpuExceedCnt := 0, lastRestart := 0,
                 lastMetric := some { met with alive := true },
                 exitReported := false } ∧
      ((MultiMonitor.AddTarget cfg env tgt ms).1.metricsBuffers tgt.pid).map
          RingBuffer.GetAll
        = some [{ met with alive := true }]) := by
  have hlen : 1 ≤ ((normalizeMultiConfig cfg).metricsBufferLen).toNat := by
    unfold normalizeMultiConfig
    split <;> simp <;> omega
  refine ⟨?_, ?_, ?_, ?_⟩
  · intro hdup
    simp [MultiMonitor.AddTarget, hdup]
  · intro hnone halive
    simp [MultiMonitor.AddTarget, hnone, halive]
  · intro e he
    by_cases hdup : (ms.targets tgt.pid).isSome
    · simp [MultiMonitor.AddTarget, hdup]
    · by_cases halive : env.isAlive tgt.pid = false
      · simp [MultiMonitor.AddTarget, hdup, halive]
      · exfalso
        cases hgm : env.getMetrics tgt.pid <;>
          simp [MultiMonitor.AddTarget, hdup, halive, hgm] at he
  · intro met hnone halive hgm
    have hdup : ¬ (ms.targets tgt.pid).isSome = true := by simp [hnone]
    have halive2 : ¬ (env.isAlive tgt.pid = false) := by simp [halive]
    refine ⟨?_, ?_, ?_⟩
    · simp [MultiMonitor.AddTarget, hdup, halive2, hgm]
    · simp [MultiMonitor.AddTarget, hdup, halive2, hgm]
    · have hpush :
          ((NewRingBuffer ProcessMetrics
              ((normalizeMultiConfig cfg).metricsBufferLen).toNat).Push
            { met with alive := true }).GetAll = [{ met with alive := true }] := by
        rw [getAll_push (inv_new hlen), getAll_new, size_new, List.nil_append]
        exact lastN_of_length_le (by simpa using hlen)
      simp [MultiMonitor.AddTarget, hdup, halive2, hgm, hpush]

/-- The provider environment of the C8 witness: pid 5 alive with one
metric sample. -/
def envC8 : ProviderEnv :=
  { isAlive := fun p => p = 5,
    getMetrics := fun p => if p = 5 then some ⟨5, "plant", 10, 2048, true⟩ else none }

/-- The target and empty fleet state of the C8 witness. -/
def tgtC8 : MonitorTarget :=
  { pid := 5, name := "plant", aliasName := "", cmdline := "", restartCmd := "",
    autoRestart := false, cpuThreshold := 0, memThreshold := 0, cpuExceedCount := 0,
    memExceedCount := 0, restartCooldown := 0 }

/-- An empty fleet state. -/
def msEmpty : MultiState :=
  { targets := fun _ => none, metricsBuffers := fun _ => none,
    eventsBuffer := NewRingBuffer Event 100, running := false }

/-- Witness for C8: the not-alive rejection on an empty fleet and the
successful add of pid 5 with its initial sample. -/
theorem C8_add_target_validation_witness :
    (MultiMonitor.AddTarget ⟨0, 0, 0⟩ ⟨fun _ => false, fun _ => none⟩ tgtC8 msEmpty
      = (msEmpty, some MError.notAlive) ∧
    (MultiMonitor.AddTarget ⟨0, 0, 0⟩ envC8 tgtC8 msEmpty).2 = none ∧
    (MultiMonitor.AddTarget ⟨0, 0, 0⟩ envC8 tgtC8 msEmpty).1.targets 5
      = some { target := tgtC8, cpuExceedCnt := 0, lastRestart := 0,
               lastMetric := some ⟨5, "plant", 10, 2048, true⟩,
               exitReported := false } ∧
    ((MultiMonitor.AddTarget ⟨0, 0, 0⟩ envC8 tgtC8 msEmpty).1.metricsBuffers 5).map
        RingBuffer.GetAll
      = some [⟨5, "plant", 10, 2048, true⟩]) :=
  ⟨(C8_add_target_validation ⟨0, 0, 0⟩ ⟨fun _ => false, fun _ => none⟩ tgtC8
      msEmpty).2.1 (by decide) (by decide),
    ((C8_add_target_validation ⟨0, 0, 0⟩ envC8 tgtC8 msEmpty).2.2.2
      ⟨5, "plant", 10, 2048, true⟩ (by decide) (by decide) (by decide)).1,
    ((C8_add_target_validation ⟨0, 0, 0⟩ envC8 tgtC8 msEmpty).2.2.2
      ⟨5, "plant", 10, 2048, true⟩ (by decide) (by decide) (by decide)).2.1,
    ((C8_add_target_validation ⟨0, 0, 0⟩ envC8 tgtC8 msEmpty).2.2.2
      ⟨5, "plant", 10, 2048, true⟩ (by decide) (by decide) (by decide)).2.2⟩

/-- Counterexample to claim C9: removing the untracked pid 5 from an
empty fleet succeeds silently and unchanged (the Go method has no error
result at all), while the remove operation worded as in the specification
would fail with UnknownTarget. -/
theorem C9_counterexample_remove_returns_nothing :
    MultiMonitor.RemoveTarget msEmpty 5 = msEmpty ∧
    MultiMonitor.RemoveTargetSpec msEmpty 5 = Except.error MError.unknownTarget := by
  constructor
  · ext p
    · simp [MultiMonitor.RemoveTarget, msEmpty]
    · simp [MultiMonitor.RemoveTarget, msEmpty]
    · rfl
    · rfl
  · rfl

/-- Claim C9 amended: the remove-target operation has no failure result;
removing an identifier that is not tracked (and has no history) is a
silent no-op that leaves the target map and the metric histories
unchanged. Only the update operation reports UnknownTarget. -/
theorem C9_remove_untracked_silent_noop (ms : MultiState) (pid : Int)
    (h1 : ms.targets pid = none) (h2 : ms.metricsBuffers pid = none) :
    MultiMonitor.RemoveTarget ms pid = ms ∧
    MultiMonitor.RemoveTargetSpec ms pid = Except.error MError.unknownTarget := by
  constructor
  · ext p
    · by_cases hp : p = pid <;> simp [MultiMonitor.RemoveTarget, hp, h1]
    · by_cases hp : p = pid <;> simp [MultiMonitor.RemoveTarget, hp, h2]
    · rfl
    · rfl
  · simp [MultiMonitor.RemoveTargetSpec, h1]

/-- Witness for the amended C9 at pid 8 on the empty fleet state. -/
theorem C9_remove_untracked_silent_noop_witness :
    ((msEmpty.targets 8 = none ∧ msEmpty.metricsBuffers 8 = none) ∧
      (MultiMonitor.RemoveTarget msEmpty 8 = msEmpty ∧
        MultiMonitor.RemoveTargetSpec msEmpty 8 = Except.error MError.unknownTarget)) :=
  ⟨⟨rfl, rfl⟩, C9_remove_untracked_silent_noop msEmpty 8 rfl rfl⟩
